import Mathlib

/-!
Verification development for the `cocos-requet` HTTP client.

The TypeScript sources (`src/helper.ts`, `src/client.ts`, and the duplicated
drafts in `src/unnamed/part_000`) are shallowly embedded below.  JavaScript
runtime values that flow through the client are modelled by the inductive
`JSValue`; JavaScript strings are Lean `String`s; promise outcomes are
modelled by `Except` (an `Except.ok` is a fulfilled promise, an
`Except.error` a rejected one); mutation of header objects is modelled by
explicit state passing over association lists that keep JavaScript's
property insertion order.
-/

set_option maxRecDepth 4096

/-- A JavaScript `Error`-like value, identified by its `name` and `message`
(this is all the embedded code ever inspects). -/
structure JSErr where
  name : String
  message : String
deriving DecidableEq, Repr

/-- A JavaScript runtime value, as far as the client inspects one.  Numbers
are modelled by their canonical decimal text (the code only ever passes small
integers through `String(...)`/`JSON.stringify`, where that text is exactly
what JavaScript produces).  `Date` objects are modelled by their ISO-8601
serialization, `ArrayBuffer`/`Buffer`/`Stream`/`File`/`Blob`/`FormData`
values by constructor tags (the client only ever branches on their runtime
shape), an `ArrayBufferView` by its underlying buffer, and a
`URLSearchParams` by its url-encoded `toString` text. -/
inductive JSValue where
  | vUndefined
  | vNull
  | vBool (b : Bool)
  | vNum (lit : String)
  | vStr (s : String)
  | vArr (elems : List JSValue)
  | vObj (fields : List (String × JSValue))
  | vDate (iso : String)
  | vFormData
  | vArrayBuffer
  | vBuffer
  | vStream
  | vFile
  | vBlob
  | vArrayBufferView (buffer : JSValue)
  | vURLSearchParams (encoded : String)

/-- JavaScript truthiness of a value (`if (x)`).  `NaN`, `0` and `-0` are the
falsy numbers; every object (including empty arrays and objects) is truthy. -/
def jsTruthy : JSValue → Bool
  | .vUndefined => false
  | .vNull => false
  | .vBool b => b
  | .vNum lit => !(lit == "0" || lit == "-0" || lit == "NaN")
  | .vStr s => !(s == "")
  | _ => true

/-- JavaScript `String(x)` coercion.  Container coercions are modelled only
as far as the client exercises them: in every modelled flow, objects, arrays
and dates are JSON-stringified or ISO-converted before reaching `String(..)`,
so only the primitive cases below ever run. -/
def jsToString : JSValue → String
  | .vUndefined => "undefined"
  | .vNull => "null"
  | .vBool b => cond b "true" "false"
  | .vNum lit => lit
  | .vStr s => s
  | .vArr _ => ""
  | .vObj _ => "[object Object]"
  | .vDate iso => iso
  | .vFormData => "[object FormData]"
  | .vArrayBuffer => "[object ArrayBuffer]"
  | .vBuffer => "[object Buffer]"
  | .vStream => "[object Stream]"
  | .vFile => "[object File]"
  | .vBlob => "[object Blob]"
  | .vArrayBufferView _ => ""
  | .vURLSearchParams e => e

/-- The whitespace characters stripped by JavaScript's `String#trim` (ASCII
whitespace, NBSP, BOM and the line/paragraph separators). -/
def jsWhitespaceChar (c : Char) : Bool :=
  c == ' ' || c == '\t' || c == '\n' || c == '\r' || c == '\x0b' || c == '\x0c' ||
  c == Char.ofNat 0xa0 || c == Char.ofNat 0xfeff ||
  c == Char.ofNat 0x2028 || c == Char.ofNat 0x2029

/-- JavaScript `String#trim`. -/
def jsTrim (s : String) : String :=
  String.mk (((s.data.dropWhile jsWhitespaceChar).reverse.dropWhile jsWhitespaceChar).reverse)

/-- Lower-case one ASCII letter. -/
def charLower (c : Char) : Char :=
  if 65 ≤ c.toNat ∧ c.toNat ≤ 90 then Char.ofNat (c.toNat + 32) else c

/-- Upper-case one ASCII letter. -/
def charUpper (c : Char) : Char :=
  if 97 ≤ c.toNat ∧ c.toNat ≤ 122 then Char.ofNat (c.toNat - 32) else c

/-- JavaScript `String#toLowerCase` (all strings in the embedded flows are
ASCII). -/
def jsToLower (s : String) : String := String.mk (s.data.map charLower)

/-- JavaScript `String#toUpperCase` (ASCII, as above). -/
def jsToUpper (s : String) : String := String.mk (s.data.map charUpper)

/-- Index of the first occurrence of a character, `-1` when absent
(JavaScript `String#indexOf` with a one-character needle). -/
def jsIndexOfChar (s : String) (c : Char) : Int :=
  let rec go : List Char → Nat → Int
    | [], _ => -1
    | d :: rest, i => if d == c then Int.ofNat i else go rest (i + 1)
  go s.data 0

/-- JavaScript `String#slice(start, end)` with negative-index wrapping and
clamping. -/
def jsSlice (s : String) (start stop : Int) : String :=
  let len : Int := Int.ofNat s.data.length
  let norm : Int → Nat := fun i =>
    if i < 0 then (max (len + i) 0).toNat else (min i len).toNat
  let a := norm start
  let b := norm stop
  String.mk ((s.data.drop a).take (b - a))

/-- Does the character list start with the given pattern? -/
def charsStartWith : List Char → List Char → Bool
  | _, [] => true
  | [], _ :: _ => false
  | c :: cs, p :: ps => c == p && charsStartWith cs ps

/-- Does the character list contain the given pattern as a contiguous run? -/
def charsContain : List Char → List Char → Bool
  | [], pat => pat.isEmpty
  | c :: rest, pat => charsStartWith (c :: rest) pat || charsContain rest pat

/-- JavaScript `s.indexOf(pat) !== -1` for string needles. -/
def strContains (s pat : String) : Bool := charsContain s.data pat.data

/-- JavaScript `String#split('\n')`: splits on every newline, yielding
`[""]` for the empty string and an empty trailing piece after a trailing
newline. -/
def jsSplitNl (s : String) : List String :=
  let rec go : List Char → List Char → List String
    | [], cur => [String.mk cur.reverse]
    | c :: rest, cur =>
      if c == '\n' then String.mk cur.reverse :: go rest [] else go rest (c :: cur)
  go s.data []

/-- The UTF-8 bytes of a code point, as natural numbers. -/
def utf8Bytes (n : Nat) : List Nat :=
  if n < 0x80 then [n]
  else if n < 0x800 then [0xc0 + n / 64, 0x80 + n % 64]
  else if n < 0x10000 then [0xe0 + n / 4096, 0x80 + (n / 64) % 64, 0x80 + n % 64]
  else [0xf0 + n / 262144, 0x80 + (n / 4096) % 64, 0x80 + (n / 64) % 64, 0x80 + n % 64]

/-- An uppercase hexadecimal digit. -/
def hexDigitU (n : Nat) : Char :=
  if n < 10 then Char.ofNat (48 + n) else Char.ofNat (55 + n)

/-- `%XX` percent-escape of one byte, uppercase as `encodeURIComponent`
produces it. -/
def percentByte (n : Nat) : String :=
  String.mk ['%', hexDigitU (n / 16), hexDigitU (n % 16)]

/-- The characters `encodeURIComponent` leaves unescaped:
`A-Z a-z 0-9 - _ . ! ~ * ' ( )`. -/
def uriUnescapedChar (c : Char) : Bool :=
  c.isAlpha || c.isDigit || c == '-' || c == '_' || c == '.' || c == '!' ||
  c == '~' || c == '*' || c == Char.ofNat 39 || c == '(' || c == ')'

/-- JavaScript `encodeURIComponent`. -/
def encodeURIComponentStr (s : String) : String :=
  String.join (s.data.map fun c =>
    if uriUnescapedChar c then String.singleton c
    else String.join ((utf8Bytes c.toNat).map percentByte))

/-- The JSON string escape of one character, as `JSON.stringify` emits it. -/
def jsonEscapeChar (c : Char) : String :=
  if c == '"' then "\\\""
  else if c == '\\' then "\\\\"
  else if c == '\n' then "\\n"
  else if c == '\r' then "\\r"
  else if c == '\t' then "\\t"
  else if c == '\x08' then "\\b"
  else if c == '\x0c' then "\\f"
  else if c.toNat < 0x20 then
    "\\u00" ++ String.mk [hexDigitU (c.toNat / 16), hexDigitU (c.toNat % 16)]
  else String.singleton c

/-- `JSON.stringify` of a string value. -/
def jsonQuoteString (s : String) : String :=
  "\"" ++ String.join (s.data.map jsonEscapeChar) ++ "\""

/-- Fuelled worker for `jsonStringify`; the fuel strictly dominates the value
depth, so with `sizeOf` as fuel the `0` case is never reached. -/
def jsonStringifyF : Nat → JSValue → Option String
  | 0, _ => none
  | fuel + 1, v =>
    match v with
    | .vUndefined => none
    | .vNull => some "null"
    | .vBool b => some (cond b "true" "false")
    | .vNum lit => some lit
    | .vStr s => some (jsonQuoteString s)
    | .vDate iso => some (jsonQuoteString iso)
    | .vArr xs =>
      some ("[" ++ String.intercalate ","
        (xs.map (fun x => (jsonStringifyF fuel x).getD "null")) ++ "]")
    | .vObj fs =>
      some ("\x7b" ++ String.intercalate ","
        (fs.filterMap (fun kv =>
          (jsonStringifyF fuel kv.2).map
            (fun sv => jsonQuoteString kv.1 ++ ":" ++ sv))) ++ "\x7d")
    | .vURLSearchParams _ => some "\x7b\x7d"
    | _ => some "\x7b\x7d"

/-- Unfolding depth for `jsonStringify`.  `jsonStringifyF` consumes one unit
of fuel per nesting level only, so this bound covers every value that occurs
in this development (all are nested a handful of levels deep). -/
def jsonStringifyFuel : Nat := 1000

/-- JavaScript `JSON.stringify`, `none` modelling the `undefined` result.
Plain objects with no enumerable properties of their own (`FormData`,
buffers, streams) serialize as the empty object. -/
def jsonStringify (v : JSValue) : Option String := jsonStringifyF jsonStringifyFuel v

/-- Is the character an ASCII hexadecimal digit? -/
def isHexDigitChar (c : Char) : Bool :=
  c.isDigit || (97 ≤ c.toNat && c.toNat ≤ 102) || (65 ≤ c.toNat && c.toNat ≤ 70)

/-- The single syntax-error value this model of `JSON.parse` throws.  Real
`JSON.parse` varies the message; the embedded code only ever inspects
`name`. -/
def jsonSyntaxErr : JSErr := ⟨"SyntaxError", "Unexpected token in JSON"⟩

/-- Is the character JSON insignificant whitespace? -/
def jsonWsChar (c : Char) : Bool :=
  c == ' ' || c == '\t' || c == '\n' || c == '\r'

/-- Parse the body of a JSON string literal (after the opening quote),
returning the decoded text and the rest of the input. -/
def jsonParseStr : List Char → Option (String × List Char)
  | [] => none
  | '"' :: rest => some ("", rest)
  | '\\' :: esc =>
    match esc with
    | '"' :: rest => (jsonParseStr rest).map (fun r => ("\"" ++ r.1, r.2))
    | '\\' :: rest => (jsonParseStr rest).map (fun r => ("\\" ++ r.1, r.2))
    | '/' :: rest => (jsonParseStr rest).map (fun r => ("/" ++ r.1, r.2))
    | 'b' :: rest => (jsonParseStr rest).map (fun r => ("\x08" ++ r.1, r.2))
    | 'f' :: rest => (jsonParseStr rest).map (fun r => ("\x0c" ++ r.1, r.2))
    | 'n' :: rest => (jsonParseStr rest).map (fun r => ("\n" ++ r.1, r.2))
    | 'r' :: rest => (jsonParseStr rest).map (fun r => ("\r" ++ r.1, r.2))
    | 't' :: rest => (jsonParseStr rest).map (fun r => ("\t" ++ r.1, r.2))
    | 'u' :: a :: b :: c :: d :: rest =>
      if isHexDigitChar a && isHexDigitChar b && isHexDigitChar c && isHexDigitChar d then
        let n := [a, b, c, d].foldl (fun acc h =>
          16 * acc + (if h.isDigit then h.toNat - 48
                      else if h.toNat ≥ 97 then h.toNat - 87 else h.toNat - 55)) 0
        (jsonParseStr rest).map (fun r => (String.mk [Char.ofNat n] ++ r.1, r.2))
      else none
    | _ => none
  | c :: rest =>
    if c.toNat < 0x20 then none
    else (jsonParseStr rest).map (fun r => (String.singleton c ++ r.1, r.2))

/-- Parse the digits and optional fraction/exponent of a JSON number after
an optional leading minus, returning the matched text. -/
def jsonParseNumTail (cs : List Char) : Option (String × List Char) :=
  let intPart : Option (List Char × List Char) :=
    match cs with
    | '0' :: rest => some (['0'], rest)
    | c :: rest =>
      if c.isDigit && c != '0' then
        some (c :: rest.takeWhile Char.isDigit, rest.dropWhile Char.isDigit)
      else none
    | [] => none
  match intPart with
  | none => none
  | some (ip, rest) =>
    let (fp, rest) :=
      match rest with
      | '.' :: d :: more =>
        if d.isDigit then
          ('.' :: d :: more.takeWhile Char.isDigit, more.dropWhile Char.isDigit)
        else ([], '.' :: d :: more)
      | other => ([], other)
    if fp.isEmpty && (match rest with | '.' :: _ => true | _ => false) then none
    else
      let (ep, rest) :=
        match rest with
        | e :: more =>
          if e == 'e' || e == 'E' then
            match more with
            | s :: d :: more2 =>
              if (s == '+' || s == '-') && d.isDigit then
                (e :: s :: d :: more2.takeWhile Char.isDigit,
                 more2.dropWhile Char.isDigit)
              else if s.isDigit then
                (e :: s :: (d :: more2).takeWhile Char.isDigit,
                 (d :: more2).dropWhile Char.isDigit)
              else ([], e :: more)
            | [s] => if s.isDigit then ([e, s], []) else ([], [e, s])
            | [] => ([], [e])
          else ([], e :: more)
        | [] => ([], [])
      if (match ep with | [e] => e == 'e' || e == 'E' | _ => false) then none
      else some (String.mk (ip ++ fp ++ ep), rest)

mutual

/-- Fuelled recursive-descent JSON value parser (model of `JSON.parse`).
Every recursive call both consumes fuel and sits strictly inside the input,
so `String.length + 1` fuel always suffices. -/
def jsonParseVal : Nat → List Char → Except JSErr (JSValue × List Char)
  | 0, _ => .error jsonSyntaxErr
  | fuel + 1, cs =>
    let cs := cs.dropWhile jsonWsChar
    match cs with
    | '"' :: rest =>
      match jsonParseStr rest with
      | some (s, rest) => .ok (.vStr s, rest)
      | none => .error jsonSyntaxErr
    | '{' :: rest => jsonParseObj fuel (rest.dropWhile jsonWsChar) []
    | '[' :: rest => jsonParseArr fuel (rest.dropWhile jsonWsChar) []
    | 't' :: 'r' :: 'u' :: 'e' :: rest => .ok (.vBool true, rest)
    | 'f' :: 'a' :: 'l' :: 's' :: 'e' :: rest => .ok (.vBool false, rest)
    | 'n' :: 'u' :: 'l' :: 'l' :: rest => .ok (.vNull, rest)
    | '-' :: rest =>
      match jsonParseNumTail rest with
      | some (txt, rest) => .ok (.vNum ("-" ++ txt), rest)
      | none => .error jsonSyntaxErr
    | other =>
      match jsonParseNumTail other with
      | some (txt, rest) => .ok (.vNum txt, rest)
      | none => .error jsonSyntaxErr

/-- Parse the members of a JSON object after `{` (whitespace already
skipped), accumulating decoded fields in order. -/
def jsonParseObj : Nat → List Char → List (String × JSValue) →
    Except JSErr (JSValue × List Char)
  | 0, _, _ => .error jsonSyntaxErr
  | _ + 1, '}' :: rest, [] => .ok (.vObj [], rest)
  | fuel + 1, cs, acc =>
    match cs with
    | '"' :: rest =>
      match jsonParseStr rest with
      | none => .error jsonSyntaxErr
      | some (key, rest) =>
        match (rest.dropWhile jsonWsChar) with
        | ':' :: rest =>
          match jsonParseVal fuel rest with
          | .error e => .error e
          | .ok (v, rest) =>
            match rest.dropWhile jsonWsChar with
            | ',' :: rest => jsonParseObj fuel (rest.dropWhile jsonWsChar) (acc ++ [(key, v)])
            | '}' :: rest => .ok (.vObj (acc ++ [(key, v)]), rest)
            | _ => .error jsonSyntaxErr
        | _ => .error jsonSyntaxErr
    | _ => .error jsonSyntaxErr

/-- Parse the elements of a JSON array after `[` (whitespace already
skipped). -/
def jsonParseArr : Nat → List Char → List JSValue →
    Except JSErr (JSValue × List Char)
  | 0, _, _ => .error jsonSyntaxErr
  | _ + 1, ']' :: rest, [] => .ok (.vArr [], rest)
  | fuel + 1, cs, acc =>
    match jsonParseVal fuel cs with
    | .error e => .error e
    | .ok (v, rest) =>
      match rest.dropWhile jsonWsChar with
      | ',' :: rest => jsonParseArr fuel (rest.dropWhile jsonWsChar) (acc ++ [v])
      | ']' :: rest => .ok (.vArr (acc ++ [v]), rest)
      | _ => .error jsonSyntaxErr

end

/-- Model of `JSON.parse`: parse one value and require only whitespace to
remain.  All failures are `SyntaxError`s, as in JavaScript. -/
def jsonParse (s : String) : Except JSErr JSValue :=
  match jsonParseVal (s.length + 1) s.data with
  | .error e => .error e
  | .ok (v, rest) =>
    if (rest.dropWhile jsonWsChar).isEmpty then .ok v else .error jsonSyntaxErr

example : jsonParse "null" = .ok .vNull := rfl
example : jsonParse " \x7b\"ok\":true\x7d " = .ok (.vObj [("ok", .vBool true)]) := rfl
example : jsonParse "[1,2.5e3]" = .ok (.vArr [.vNum "1", .vNum "2.5e3"]) := rfl
example : jsonParse "nope" = .error jsonSyntaxErr := rfl
example : jsonParse "\"a\\nb\"" = .ok (.vStr "a\nb") := rfl
example : jsonStringify (.vObj [("name", .vStr "a")]) = some "\x7b\"name\":\"a\"\x7d" := rfl
example : jsTrim "  x\t " = "x" := rfl
example : jsSlice "abcdef" 0 (-1) = "abcde" := rfl
example : jsSlice "abcdef" 2 6 = "cdef" := rfl
example : jsIndexOfChar "ab:cd" ':' = 2 := rfl
example : encodeURIComponentStr "a[] b" = "a%5B%5D%20b" := rfl

/-!
Association lists model JavaScript objects with string keys: lookups find
the unique entry for a key, assignment updates an existing entry in place
(preserving insertion order) or appends a fresh one, deletion removes the
entry.  All maps built below keep keys unique.
-/

/-- `obj[k]`, `none` when the property is absent. -/
def objGet {α : Type} : List (String × α) → String → Option α
  | [], _ => none
  | kv :: rest, k => if kv.1 = k then some kv.2 else objGet rest k

/-- `obj[k] = v`: update in place when present, append when absent. -/
def objSet {α : Type} : List (String × α) → String → α → List (String × α)
  | [], k, v => [(k, v)]
  | kv :: rest, k, v => if kv.1 = k then (k, v) :: rest else kv :: objSet rest k v

/-- `delete obj[k]`. -/
def objDelete {α : Type} : List (String × α) → String → List (String × α)
  | [], _ => []
  | kv :: rest, k => if kv.1 = k then rest else kv :: objDelete rest k

/-- `{...a, ...b}` / `Object.assign({}, a, b)`: `b`'s entries override `a`'s
in place, new keys append in `b`'s order. -/
def objAssign {α : Type} (a b : List (String × α)) : List (String × α) :=
  b.foldl (fun acc kv => objSet acc kv.1 kv.2) a

theorem objGet_objSet_self {α : Type} (m : List (String × α)) (k : String) (v : α) :
    objGet (objSet m k v) k = some v := by
  induction m with
  | nil => simp [objSet, objGet]
  | cons kv rest ih =>
    by_cases h : kv.1 = k
    · simp [objSet, objGet, h]
    · simp [objSet, objGet, h, ih]

theorem objGet_objSet_ne {α : Type} (m : List (String × α)) (k k' : String) (v : α)
    (h : k' ≠ k) : objGet (objSet m k v) k' = objGet m k' := by
  induction m with
  | nil => simp [objSet, objGet, Ne.symm h]
  | cons kv rest ih =>
    by_cases hk : kv.1 = k
    · have h2 : ¬ kv.1 = k' := by rw [hk]; exact Ne.symm h
      simp only [objSet, if_pos hk, objGet, if_neg (Ne.symm h), if_neg h2]
    · simp only [objSet, if_neg hk, objGet]
      by_cases hk' : kv.1 = k'
      · simp only [if_pos hk']
      · simp only [if_neg hk', ih]

/-!  src/helper.ts  -/

/-- `trim` (src/helper.ts): `String#trim` behind a feature test that always
takes the method branch at runtime. -/
def trim (str : String) : String := jsTrim str

/-- Is the character allowed after the first letter of a URL scheme
(RFC 3986: letters, digits, plus, period, hyphen)? -/
def schemeChar (c : Char) : Bool :=
  c.isAlpha || c.isDigit || c == '+' || c == '-' || c == '.'

/-- `isAbsoluteURL` (src/helper.ts): the regex
`^([a-z][a-z\d+\-.]*:)?\/\//i`.  Since `:` is not a scheme character, the
regex matches exactly when the string starts with `//`, or starts with a
letter followed by the maximal run of scheme characters, then `://`. -/
def isAbsoluteURL (url : String) : Bool :=
  match url.data with
  | [] => false
  | c :: rest =>
    if c == '/' then charsStartWith rest ['/']
    else if c.isAlpha then
      charsStartWith (rest.dropWhile schemeChar) [':', '/', '/']
    else false

/-- Strip every leading `/` (the `replace(/^\/+/, '')` of `combineURLs`). -/
def stripLeadingSlashes (s : String) : String :=
  String.mk (s.data.dropWhile (fun c => c == '/'))

/-- Strip every trailing `/` (the `replace(/\/+$/, '')` of `combineURLs`). -/
def stripTrailingSlashes (s : String) : String :=
  String.mk ((s.data.reverse.dropWhile (fun c => c == '/')).reverse)

/-- `combineURLs` (src/helper.ts). -/
def combineURLs (baseURL relativeURL : String) : String :=
  if relativeURL ≠ "" then
    stripTrailingSlashes baseURL ++ "/" ++ stripLeadingSlashes relativeURL
  else baseURL

/-- `buildFullPath` (src/helper.ts). -/
def buildFullPath (baseURL requestedURL : String) : String :=
  if baseURL ≠ "" ∧ ¬ isAbsoluteURL requestedURL then
    combineURLs baseURL requestedURL
  else requestedURL

/-- Fuelled worker for `strReplaceAll`; each step consumes at least one
input character, so `length + 1` fuel always suffices. -/
def replaceAllCharsF : Nat → List Char → List Char → List Char → List Char
  | 0, l, _, _ => l
  | fuel + 1, l, pat, rep =>
    match l with
    | [] => []
    | c :: rest =>
      if !pat.isEmpty && charsStartWith l pat then
        rep ++ replaceAllCharsF fuel (l.drop pat.length) pat rep
      else c :: replaceAllCharsF fuel rest pat rep

/-- Replace every (non-overlapping, left-to-right) occurrence of `pat` by
`rep`, as JavaScript `String#replace` with a global flag does. -/
def strReplaceAll (s pat rep : String) : String :=
  String.mk (replaceAllCharsF (s.data.length + 1) s.data pat.data rep.data)

/-- `encode` (src/helper.ts): `encodeURIComponent` with `: $ , + [ ]`
restored (space becomes `+`).  The model's percent-escapes are uppercase, so
the case-insensitive flags of the source's replacements are inert. -/
def encode (val : String) : String :=
  strReplaceAll (strReplaceAll (strReplaceAll (strReplaceAll (strReplaceAll
    (strReplaceAll (encodeURIComponentStr val)
      "%3A" ":") "%24" "$") "%2C" ",") "%20" "+") "%5B" "[") "%5D" "]"

/-- `isObject` (src/helper.ts): `val !== null && typeof val === 'object'`. -/
def isObject : JSValue → Bool
  | .vArr _ => true
  | .vObj _ => true
  | .vDate _ => true
  | .vFormData => true
  | .vArrayBuffer => true
  | .vBuffer => true
  | .vStream => true
  | .vFile => true
  | .vBlob => true
  | .vArrayBufferView _ => true
  | .vURLSearchParams _ => true
  | _ => false

/-- `isDate` (src/helper.ts): `kindOfTest('Date')`. -/
def isDate : JSValue → Bool
  | .vDate _ => true
  | _ => false

/-- `value == null` (loose equality, matching both `null` and
`undefined`). -/
def jsLooseNull : JSValue → Bool
  | .vNull => true
  | .vUndefined => true
  | _ => false

/-- `buildURL` (src/helper.ts): serialize `params` onto `url`. -/
def buildURL (url : String) (params : Option (List (String × JSValue))) : String :=
  match params with
  | none => url
  | some ps =>
    let parts : List String :=
      ps.foldl (fun acc kv =>
        if jsLooseNull kv.2 then acc
        else
          let keyVals : String × List JSValue :=
            match kv.2 with
            | .vArr xs => (kv.1 ++ "[]", xs)
            | v => (kv.1, [v])
          acc ++ keyVals.2.map (fun v =>
            let v2 : JSValue :=
              if isDate v then .vStr (jsToString v)
              else if isObject v then .vStr ((jsonStringify v).getD "undefined")
              else v
            encode keyVals.1 ++ "=" ++ encode (jsToString v2))) []
    url ++ (if url.data.contains '?' then "&" else "?") ++ String.intercalate "&" parts

example : buildURL "/x" (some [("a", .vArr [.vNum "1", .vNum "2"]), ("b", .vNull), ("c", .vStr "x")]) = "/x?a[]=1&a[]=2&c=x" := rfl

/-- `ignoreDuplicateOf` (src/helper.ts): headers whose duplicates node
ignores. -/
def ignoreDuplicateOf : List String :=
  ["age", "authorization", "content-length", "content-type", "etag",
   "expires", "from", "host", "if-modified-since", "if-unmodified-since",
   "last-modified", "location", "max-forwards", "proxy-authorization",
   "referer", "retry-after", "user-agent"]

/-- A value of the parsed-headers map: a plain string, or the ordered list
accumulated for `set-cookie`. -/
inductive HeaderVal where
  | sv (s : String)
  | list (vals : List String)
deriving DecidableEq, Repr

/-- JavaScript truthiness of a parsed-header value (`""` is falsy, every
array — even an empty one — is truthy). -/
def hvTruthy : HeaderVal → Bool
  | .sv s => !(s == "")
  | .list _ => true

/-- String coercion of a parsed-header value (`Array#toString` for the
list case, which the source never reaches for non-`set-cookie` keys). -/
def hvStr : HeaderVal → String
  | .sv s => s
  | .list vs => String.intercalate "," vs

/-- Appending one more cookie with `push`.  The `sv` case models the source
position where a non-array value would crash; it is unreachable because only
the `set-cookie` branch ever stores lists. -/
def hvPush (hv : HeaderVal) (val : String) : HeaderVal :=
  match hv with
  | .list vs => .list (vs ++ [val])
  | .sv _ => .list [val]

/-- The `i = line.indexOf(':')` of `parseHeaders`. -/
def lineIdx (line : String) : Int := jsIndexOfChar line ':'

/-- The `key` a `parseHeaders` line yields: `trim(line.slice(0, i))`
lower-cased (for a colon-less line `i = -1`, so the last character is
dropped). -/
def lineKey (line : String) : String :=
  jsToLower (trim (jsSlice line 0 (lineIdx line)))

/-- The `val` a `parseHeaders` line yields: `trim(line.slice(i + 1))` (the
whole line when no colon is present). -/
def lineVal (line : String) : String :=
  trim (jsSlice line (lineIdx line + 1) (Int.ofNat line.data.length))

/-- One iteration of the `parseHeaders` accumulation loop. -/
def parseHeadersStep (parsed : List (String × HeaderVal)) (line : String) :
    List (String × HeaderVal) :=
  let key := lineKey line
  let val := lineVal line
  if key = "" then parsed
  else if ((objGet parsed key).elim false (fun hv => hvTruthy hv)) &&
      ignoreDuplicateOf.contains key then parsed
  else if key = "set-cookie" then
    match objGet parsed key with
    | some hv =>
      if hvTruthy hv then objSet parsed key (hvPush hv val)
      else objSet parsed key (.list [val])
    | none => objSet parsed key (.list [val])
  else
    match objGet parsed key with
    | some hv =>
      if hvTruthy hv then objSet parsed key (.sv (hvStr hv ++ ", " ++ val))
      else objSet parsed key (.sv val)
    | none => objSet parsed key (.sv val)

/-- `parseHeaders` (src/helper.ts): split the raw header blob on newlines
and accumulate a key-to-value map. -/
def parseHeaders (headers : String) : List (String × HeaderVal) :=
  if headers = "" then []
  else (jsSplitNl headers).foldl parseHeadersStep []

/-- Is the character matched by the `[-+\w]` class of `parseProtocol`'s
regex? -/
def protocolChar (c : Char) : Bool :=
  c == '-' || c == '+' || c.isAlpha || c.isDigit || c == '_'

/-- `parseProtocol` (src/helper.ts): the regex
`^([-+\w]{1,25})(:?\/\/|:)/`.  Since neither `:` nor `/` is a `[-+\w]`
character, the regex matches exactly when the maximal leading run of such
characters has length 1 to 25 and is followed by `:` or `//`. -/
def parseProtocol (url : String) : String :=
  let run := url.data.takeWhile protocolChar
  let rest := url.data.drop run.length
  if 1 ≤ run.length ∧ run.length ≤ 25 ∧
      (charsStartWith rest [':'] || charsStartWith rest ['/', '/']) then
    String.mk run
  else ""

/-- `stringifySafely` (src/helper.ts), parameterized by the `JSON.parse`
used for the trial parse (the source calls the ambient global; theorems over
an arbitrary `parse` cover it in particular).  The result is the
possibly-thrown (`Except.error`) outcome of a `JSON.stringify` result
(`none` being `undefined`). -/
def stringifySafelyWith (parse : String → Except JSErr JSValue)
    (rawValue : JSValue) : Except JSErr (Option String) :=
  match rawValue with
  | .vStr s =>
    match parse s with
    | .ok _ => .ok (some (trim s))
    | .error e =>
      if e.name = "SyntaxError" then .ok (jsonStringify rawValue)
      else .error e
  | _ => .ok (jsonStringify rawValue)

/-- `stringifySafely` with the model's `JSON.parse`. -/
def stringifySafely (rawValue : JSValue) : Except JSErr (Option String) :=
  stringifySafelyWith jsonParse rawValue

example : parseProtocol "ftp://x/y" = "ftp" := rfl
example : parseProtocol "http://h/r" = "http" := rfl
example : parseProtocol "/r" = "" := rfl
example : parseProtocol "http//x" = "http" := rfl
example : lineKey "Set-Cookie: a" = "set-cookie" := rfl
example : lineVal "Set-Cookie: a" = "a" := rfl
example : lineKey "xyz" = "xy" := rfl
example : lineVal "xyz" = "xyz" := rfl
example : parseHeaders "A: 1\nSet-Cookie: a\nB: 2\nSet-Cookie: b\nA: 3" =
    [("a", .sv "1, 3"), ("set-cookie", .list ["a", "b"]), ("b", .sv "2")] := rfl
example : stringifySafely (.vStr " \x7b\"a\":1\x7d ") = .ok (some "\x7b\"a\":1\x7d") := rfl
example : stringifySafely (.vStr "plain") = .ok (some "\"plain\"") := rfl
example : stringifySafely (.vObj []) = .ok (some "\x7b\x7d") := rfl

/-!  Helpers imported by src/client.ts that are missing from src/helper.ts
(only their callers ship in the repository); they are modelled from the
spec's Header Normalizer and Payload Transformer contracts.  -/

/-- Modelled from the spec: `normalizeHeaderName` is absent from the
shipped helper module.  Per the Header Normalizer contract it finds any
case-insensitive match for the canonical name among the keys and renames it
to the canonical casing in place, leaving the value untouched. -/
def normalizeHeaderName (headers : List (String × String)) (normalizedName : String) :
    List (String × String) :=
  headers.map (fun kv =>
    if jsToLower kv.1 = jsToLower normalizedName then (normalizedName, kv.2) else kv)

/-- Modelled from the spec: `setContentTypeIfUnset` is absent from the
shipped helper module.  Per the Header Normalizer contract it sets the
`Content-Type` header only when the canonical key is absent. -/
def setContentTypeIfUnset (headers : List (String × String)) (value : String) :
    List (String × String) :=
  if objGet headers "Content-Type" = none then objSet headers "Content-Type" value
  else headers

/-- Modelled from the spec: the runtime shape tests (`isFormData`,
`isArrayBuffer`, `isBuffer`, `isStream`, `isFile`, `isBlob`) are absent from
the shipped helper module; on the value model each is the corresponding
constructor tag.  This is their disjunction, exactly as `transformRequest`
consumes them. -/
def isPassThroughShape : JSValue → Bool
  | .vFormData => true
  | .vArrayBuffer => true
  | .vBuffer => true
  | .vStream => true
  | .vFile => true
  | .vBlob => true
  | _ => false

/-- Modelled from the spec: `isArrayBufferView`, absent from the shipped
helper module, as a constructor-tag test. -/
def isArrayBufferView : JSValue → Bool
  | .vArrayBufferView _ => true
  | _ => false

/-- Modelled from the spec: `isURLSearchParams`, absent from the shipped
helper module, as a constructor-tag test. -/
def isURLSearchParams : JSValue → Bool
  | .vURLSearchParams _ => true
  | _ => false

/-- The `data.buffer` of an `ArrayBufferView`. -/
def bufferOf : JSValue → JSValue
  | .vArrayBufferView b => b
  | v => v

/-!  src/client.ts  -/

/-- Request headers (`RequetHeaders`).  The declared TypeScript type is
`Record<string, string | number>`; every header the embedded flows carry is
a string, and `String(v)` is the identity on strings, so values are plain
strings here. -/
abbrev Headers := List (String × String)

/-- `RequetConstructor`: the options accepted by the `Client` constructor.
`Option.none` models an absent property. -/
structure RequetConstructor where
  baseURL : Option String := none
  headers : Option Headers := none
  timeout : Option Nat := none
  responseType : Option String := none

/-- `RequestConfig`: a per-call request configuration. -/
structure RequestConfig where
  baseURL : Option String := none
  headers : Option Headers := none
  timeout : Option Nat := none
  responseType : Option String := none
  url : String
  method : Option String := none
  params : Option (List (String × JSValue)) := none
  data : Option JSValue := none
  withCredentials : Option String := none

/-- `ReqeustResponse`: the response record the transport adapter builds. -/
structure ReqeustResponse where
  data : JSValue
  status : Nat
  statusText : String
  headers : List (String × HeaderVal)
  config : RequestConfig

/-- `transformRequest` (src/client.ts): normalize the `Accept` and
`Content-Type` names, then serialize the payload according to its runtime
shape, possibly setting `Content-Type`.  Header mutation is returned
alongside the new payload; a thrown `stringifySafely` error rejects. -/
def transformRequest (data : JSValue) (headers : Headers) :
    Except JSErr (JSValue × Headers) :=
  let headers := normalizeHeaderName headers "Accept"
  let headers := normalizeHeaderName headers "Content-Type"
  if !jsTruthy data || isPassThroughShape data then .ok (data, headers)
  else if isArrayBufferView data then .ok (bufferOf data, headers)
  else if isURLSearchParams data then
    let headers := setContentTypeIfUnset headers "application/x-www-form-urlencoded;charset=utf-8"
    .ok (.vStr (jsToString data), headers)
  else
    let isObjectPayload := isObject data
    let contentType := (objGet headers "Content-Type").getD ""
    if isObjectPayload || strContains contentType "application/json" then
      let headers := setContentTypeIfUnset headers "application/json"
      match stringifySafely data with
      | .ok (some s) => .ok (.vStr s, headers)
      | .ok none => .ok (.vUndefined, headers)
      | .error e => .error e
    else .ok (data, headers)

/-- `beforeSendRquestInterceptor.fulfilled` (src/client.ts): the implicit
trailing request-interceptor stage.  Forces JSON headers when
`responseType === 'json'`, then replaces `config.data` by
`transformRequest(config.data || {}, config.headers)`. -/
def beforeSendFulfilled (config : RequestConfig) : Except JSErr RequestConfig :=
  let headers := config.headers.getD []
  let headers :=
    if config.responseType = some "json" then
      objSet (objSet headers "Accept" "application/json") "Content-Type" "application/json"
    else headers
  let d := match config.data with
    | some v => if jsTruthy v then v else JSValue.vObj []
    | none => JSValue.vObj []
  match transformRequest d headers with
  | .ok (d2, h2) => .ok { config with data := some d2, headers := some h2 }
  | .error e => .error e

example :
    beforeSendFulfilled { url := "/r", data := some (.vObj [("name", .vStr "a")]),
                          headers := some [("Accept", "application/json")] } =
    .ok { url := "/r", data := some (.vStr "\x7b\"name\":\"a\"\x7d"),
          headers := some [("Accept", "application/json"), ("Content-Type", "application/json")] } := rfl

/-!  Interceptor chains.  A slot of an `InterceptorManager` is `none` when
tombstoned by `eject`, otherwise a pair of handlers; the promise fold
`promise.then(h.fulfilled, h.rejected)` threads an `Except` outcome through
the slots.  -/

/-- A registered interceptor: the `(onFulfilled, onRejected)` pair stored by
`InterceptorManager.use`. -/
structure HandlerPair (E α : Type) where
  fulfilled : α → Except E α
  rejected : E → Except E α

/-- `promise.then(h.fulfilled, h.rejected)` on a settled outcome. -/
def promiseThen {E α : Type} (acc : Except E α) (h : HandlerPair E α) : Except E α :=
  match acc with
  | .ok v => h.fulfilled v
  | .error e => h.rejected e

/-- `InterceptorManager.use`: append the pair, return its index as the
handle. -/
def interceptorUse {E α : Type} (handlers : List (Option (HandlerPair E α)))
    (h : HandlerPair E α) : List (Option (HandlerPair E α)) × Nat :=
  (handlers ++ [some h], handlers.length)

/-- `InterceptorManager.eject`: tombstone the slot (set it to `null`)
without renumbering. -/
def eject {E α : Type} (handlers : List (Option (HandlerPair E α))) (id : Nat) :
    List (Option (HandlerPair E α)) :=
  handlers.set id none

/-- The interceptor fold of `berforeRequest`/`afterRequest`
(src/client.ts): reduce over the slots, skipping tombstones by returning the
accumulated promise unchanged. -/
def applyHandlers {E α : Type} (handlers : List (Option (HandlerPair E α)))
    (init : Except E α) : Except E α :=
  handlers.foldl (fun request h =>
    match h with
    | none => request
    | some handler => promiseThen request handler) init

/-- `afterRequest` of the duplicated `Client` draft
(src/unnamed/part_000, second draft): identical fold, except that a
tombstoned slot returns `promise` — the original pre-chain value — instead
of the accumulated `request`. -/
def afterRequestDup {E α : Type} (handlers : List (Option (HandlerPair E α)))
    (promise : Except E α) : Except E α :=
  handlers.foldl (fun request h =>
    match h with
    | none => promise
    | some handler => promiseThen request handler) promise

/-- The interceptor fold instrumented with the index of every slot whose
handler pair is invoked, in invocation order; its outcome component is the
`applyHandlers` fold.  Used to state which stages a chain application
executes. -/
def applyHandlersTrace {E α : Type} :
    Nat → List (Option (HandlerPair E α)) → Except E α → Except E α × List Nat
  | _, [], acc => (acc, [])
  | i, none :: rest, acc => applyHandlersTrace (i + 1) rest acc
  | i, some h :: rest, acc =>
    let r := applyHandlersTrace (i + 1) rest (promiseThen acc h)
    (r.1, i :: r.2)

/-- A JavaScript interceptor fold caught in flight: `reduce` has already
captured the slot contents (building the promise chain synchronously), and
some prefix of the captured slots has already run. -/
structure InFlightFold (E α : Type) where
  snapshot : List (Option (HandlerPair E α))
  pos : Nat
  acc : Except E α
  trace : List Nat

/-- Begin a fold: `reduce` captures the manager's current slot list. -/
def foldStart {E α : Type} (handlers : List (Option (HandlerPair E α)))
    (init : Except E α) : InFlightFold E α :=
  ⟨handlers, 0, init, []⟩

/-- Run one captured slot of an in-flight fold (a no-op past the end). -/
def foldStep {E α : Type} (s : InFlightFold E α) : InFlightFold E α :=
  match s.snapshot.get? s.pos with
  | none => s
  | some none => { s with pos := s.pos + 1 }
  | some (some h) =>
    { s with pos := s.pos + 1, acc := promiseThen s.acc h,
             trace := s.trace ++ [s.pos] }

/-- Run `n` more captured slots of an in-flight fold. -/
def foldSteps {E α : Type} : Nat → InFlightFold E α → InFlightFold E α
  | 0, s => s
  | n + 1, s => foldSteps n (foldStep s)

/-!  The transport adapter `_request` (src/client.ts), modelled up to its
interaction trace with the XHR object.  -/

/-- One observable interaction with the transport. -/
inductive XhrCall where
  | setTimeoutMs (t : Nat)
  | openConn (method url : String)
  | setRequestHeader (key value : String)
  | setRespType (rt : String)
  | send (body : Option JSValue)

/-- `string || default` for an optional JavaScript string. -/
def jsOrStr (o : Option String) (d : String) : String :=
  match o with
  | some s => if s ≠ "" then s else d
  | none => d

/-- The method string handed to `xhr.open`:
`(method || 'get').toUpperCase()`. -/
def openMethod (method : Option String) : String := jsToUpper (jsOrStr method "get")

/-- The header-assignment loop of `_request`: each entry is forwarded via
`setRequestHeader` unless the body is `undefined` and the key is
case-insensitively `content-type`, in which case the entry is deleted
instead.  Returns the calls made and the keys deleted. -/
def headerCalls (data : Option JSValue) : Headers → List XhrCall × List String
  | [] => ([], [])
  | (k, v) :: rest =>
    let r := headerCalls data rest
    if data.isNone ∧ jsToLower k = "content-type" then (r.1, k :: r.2)
    else (XhrCall.setRequestHeader k v :: r.1, r.2)

/-- The outcome of `_request` up to `xhr.send`: the transport interactions
in order, the rejection raised before `open` if any, and the header keys the
body-less branch deleted. -/
structure SetupOut where
  trace : List XhrCall
  err : Option String
  deleted : List String

/-- The `xhr.timeout` assignment of `_request` (made only for a truthy
timeout), as a trace fragment. -/
def timeoutTrace (timeout : Option Nat) : List XhrCall :=
  match timeout with
  | some t => if t ≠ 0 then [.setTimeoutMs t] else []
  | none => []

/-- The `xhr.responseType` assignment of `_request` (made only for a truthy
response type other than `json`), as a trace fragment. -/
def respTypeTrace (responseType : String) : List XhrCall :=
  if responseType ≠ "" ∧ responseType ≠ "json" then [.setRespType responseType] else []

/-- The `data || null` body handed to `xhr.send`. -/
def sendBody (data : Option JSValue) : Option JSValue :=
  match data with
  | some v => if jsTruthy v then some v else none
  | none => none

/-- `_request` (src/client.ts) up to `send`: resolve the full path, build
the query string, reject unsupported protocols before `open`, then open,
assign headers, optionally set `responseType`, and send `data || null`. -/
def requestSetup (cfg : RequestConfig) : SetupOut :=
  let fullPath := buildFullPath ((cfg.baseURL.getD "")) cfg.url
  let requestUrl := buildURL fullPath cfg.params
  let protocol := parseProtocol fullPath
  if protocol ≠ "" ∧ ¬ (["http", "https", "file", "blob"].contains protocol) then
    ⟨timeoutTrace cfg.timeout, some "Unsupported protocol", []⟩
  else
    let hc := headerCalls cfg.data (cfg.headers.getD [])
    ⟨timeoutTrace cfg.timeout ++ [.openConn (openMethod cfg.method) requestUrl] ++
      hc.1 ++ respTypeTrace (cfg.responseType.getD "json") ++
      [.send (sendBody cfg.data)], none, hc.2⟩

/-- The fields of the transport read back after a successful completion. -/
structure TransportSuccess where
  status : Nat
  statusText : String
  responseText : String
  response : JSValue
  headersRaw : String

/-- The `onloadend` handler of `_request`: assemble the `ReqeustResponse`
from the transport's post-completion fields (text-flavored response types
read `responseText`; the response's `config` is the merge result the
adapter received). -/
def onloadendResponse (mergeConfig : RequestConfig) (t : TransportSuccess) :
    ReqeustResponse :=
  let responseType := mergeConfig.responseType.getD "json"
  let responseData :=
    if responseType = "" ∨ responseType = "text" ∨ responseType = "json" then
      JSValue.vStr t.responseText
    else t.response
  { status := t.status, statusText := t.statusText,
    headers := parseHeaders t.headersRaw, config := mergeConfig,
    data := responseData }

/-!  Client orchestration (src/client.ts).  The request and response chains
carry `Option`-wrapped values: `none` models JavaScript `undefined` flowing
out of a recovering `rejected` handler (the default `onRejected` is
`() => {}`).  Feeding `undefined` into a stage that dereferences it raises
the `TypeError` below, as it would at runtime.  -/

/-- The `TypeError` raised when a pipeline stage dereferences `undefined`. -/
def jsUndefTypeError : JSErr := ⟨"TypeError", "Cannot read properties of undefined"⟩

/-- The initial `Client.defaultOptions` literal. -/
def initialDefaultOptions : RequetConstructor :=
  { headers := some [("Accept", "application/json, text/plain, */*")] }

/-- `Object.assign(a, b)` on constructor options: `b`'s own (present)
properties overwrite `a`'s wholesale — in particular a `headers` object in
`b` replaces `a`'s entire `headers` object. -/
def assignOptions (a b : RequetConstructor) : RequetConstructor :=
  { baseURL := b.baseURL <|> a.baseURL,
    headers := b.headers <|> a.headers,
    timeout := b.timeout <|> a.timeout,
    responseType := b.responseType <|> a.responseType }

/-- The `Client` constructor's option handling:
`Object.assign(this.defaultOptions, options)`. -/
def ctorDefaults (options : RequetConstructor) : RequetConstructor :=
  assignOptions initialDefaultOptions options

/-- The config merge at the top of `Client.request`:
`Object.assign({}, defaultOptions, reqeustConfig, { headers: {...defaults, ...config} })`. -/
def mergeRequestConfig (defaults : RequetConstructor) (cfg : RequestConfig) :
    RequestConfig :=
  { url := cfg.url, method := cfg.method, params := cfg.params, data := cfg.data,
    withCredentials := cfg.withCredentials,
    baseURL := cfg.baseURL <|> defaults.baseURL,
    timeout := cfg.timeout <|> defaults.timeout,
    responseType := cfg.responseType <|> defaults.responseType,
    headers := some (objAssign (defaults.headers.getD []) (cfg.headers.getD [])) }

/-- `beforeSendRquestInterceptor` as a chain slot over `Option`-wrapped
configs. -/
def beforeSendRquestInterceptor : HandlerPair JSErr (Option RequestConfig) :=
  { fulfilled := fun c =>
      match c with
      | some cfg => (beforeSendFulfilled cfg).map some
      | none => .error jsUndefTypeError,
    rejected := fun _ => .ok none }

/-- The response interceptor installed by the `Client` constructor: parse
the body as JSON when the request config asked for `responseType: 'json'`
and a truthy body is present; rethrow errors. -/
def ctorResponseInterceptor : HandlerPair JSErr (Option ReqeustResponse) :=
  { fulfilled := fun r =>
      match r with
      | some resp =>
        if resp.config.responseType = some "json" ∧ jsTruthy resp.data then
          match jsonParse (jsToString resp.data) with
          | .ok v => .ok (some { resp with data := v })
          | .error e => .error e
        else .ok (some resp)
      | none => .error jsUndefTypeError,
    rejected := fun e => .error e }

/-- `berforeRequest` (src/client.ts): fold the caller-registered request
slots with `beforeSendRquestInterceptor` appended, starting from the merged
config. -/
def berforeRequest (userHandlers : List (Option (HandlerPair JSErr (Option RequestConfig))))
    (merged : RequestConfig) : Except JSErr (Option RequestConfig) :=
  applyHandlers (userHandlers ++ [some beforeSendRquestInterceptor]) (.ok (some merged))

/-- The observable outcome of one `Client.request` call: the transport
interactions, the header keys the body-less branch deleted, and the settled
promise. -/
structure RunOut where
  trace : List XhrCall
  deleted : List String
  result : Except JSErr (Option ReqeustResponse)

/-- `Client.request` (src/client.ts) against a transport that completes
successfully with `t`: merge options, run the request chain, run the
transport adapter, and fold the response chain (the constructor-installed
slot first) over the adapter's outcome — also when that outcome is a
rejection. -/
def clientRequestRun (options : RequetConstructor)
    (userReqHandlers : List (Option (HandlerPair JSErr (Option RequestConfig))))
    (userRespHandlers : List (Option (HandlerPair JSErr (Option ReqeustResponse))))
    (cfg : RequestConfig) (t : TransportSuccess) : RunOut :=
  let defaults := ctorDefaults options
  let respHandlers := some ctorResponseInterceptor :: userRespHandlers
  match berforeRequest userReqHandlers (mergeRequestConfig defaults cfg) with
  | .error e => ⟨[], [], .error e⟩
  | .ok none => ⟨[], [], .error jsUndefTypeError⟩
  | .ok (some mergeConfig) =>
    let s := requestSetup mergeConfig
    match s.err with
    | some msg => ⟨s.trace, s.deleted, applyHandlers respHandlers (.error ⟨"Error", msg⟩)⟩
    | none =>
      ⟨s.trace, s.deleted,
       applyHandlers respHandlers (.ok (some (onloadendResponse mergeConfig t)))⟩

/-!  The verb shortcuts (src/client.ts): each builds the one `RequestConfig`
it passes to `Client.request`.  -/

/-- The options accepted by the params-carrying shortcuts
(`RequestConfig` minus `method`/`url`/`params`/`data`). -/
structure ParamsRequestOptions where
  baseURL : Option String := none
  headers : Option Headers := none
  timeout : Option Nat := none
  responseType : Option String := none
  withCredentials : Option String := none

/-- The options accepted by the body-carrying shortcuts
(`RequestConfig` minus `method`/`url`/`data`; `params` stays available). -/
structure DataRequestOptions where
  baseURL : Option String := none
  headers : Option Headers := none
  timeout : Option Nat := none
  responseType : Option String := none
  params : Option (List (String × JSValue)) := none
  withCredentials : Option String := none

/-- `_paramsRequest`: `{ ...(options || {}), method, url, params }`. -/
def paramsRequestCfg (method url : String) (params : Option (List (String × JSValue)))
    (options : Option ParamsRequestOptions) : RequestConfig :=
  let o := options.getD {}
  { baseURL := o.baseURL, headers := o.headers, timeout := o.timeout,
    responseType := o.responseType, withCredentials := o.withCredentials,
    method := some method, url := url, params := params, data := none }

/-- `_dataRequest`: `{ ...(options || {}), method, url, data }`. -/
def dataRequestCfg (method url : String) (data : Option JSValue)
    (options : Option DataRequestOptions) : RequestConfig :=
  let o := options.getD {}
  { baseURL := o.baseURL, headers := o.headers, timeout := o.timeout,
    responseType := o.responseType, withCredentials := o.withCredentials,
    params := o.params, method := some method, url := url, data := data }

/-- `Client.head`. -/
def clientHead (url : String) (params : Option (List (String × JSValue)))
    (options : Option ParamsRequestOptions) : RequestConfig :=
  paramsRequestCfg "HEAD" url params options

/-- `Client.options` — the source passes `'HEAD'`, not `'OPTIONS'`, to
`_paramsRequest`. -/
def clientOptions (url : String) (params : Option (List (String × JSValue)))
    (options : Option ParamsRequestOptions) : RequestConfig :=
  paramsRequestCfg "HEAD" url params options

/-- `Client.get`. -/
def clientGet (url : String) (params : Option (List (String × JSValue)))
    (options : Option ParamsRequestOptions) : RequestConfig :=
  paramsRequestCfg "GET" url params options

/-- `Client.delete`. -/
def clientDelete (url : String) (params : Option (List (String × JSValue)))
    (options : Option ParamsRequestOptions) : RequestConfig :=
  paramsRequestCfg "DELETE" url params options

/-- `Client.post`. -/
def clientPost (url : String) (data : Option JSValue)
    (options : Option DataRequestOptions) : RequestConfig :=
  dataRequestCfg "POST" url data options

/-- `Client.put`. -/
def clientPut (url : String) (data : Option JSValue)
    (options : Option DataRequestOptions) : RequestConfig :=
  dataRequestCfg "PUT" url data options

/-- `Client.patch`. -/
def clientPatch (url : String) (data : Option JSValue)
    (options : Option DataRequestOptions) : RequestConfig :=
  dataRequestCfg "PATCH" url data options

/-!  Claim scenarios and theorems.  -/

/-- The C1 constructor options: `baseURL "http://h"`, default header
`Accept: application/json`. -/
def c1Options : RequetConstructor :=
  { baseURL := some "http://h", headers := some [("Accept", "application/json")] }

/-- The C1 call: `post("/r", {name:"a"})`. -/
def c1Config : RequestConfig := clientPost "/r" (some (.vObj [("name", .vStr "a")])) none

/-- The C1 simulated transport completion: status 200, body text
`{"ok":true}`. -/
def c1Transport : TransportSuccess :=
  { status := 200, statusText := "OK", responseText := "\x7b\"ok\":true\x7d",
    response := .vNull, headersRaw := "" }

/-- The full C1 run. -/
def c1Run : RunOut := clientRequestRun c1Options [] [] c1Config c1Transport

/-- The `data` of the response the C1 run resolves with (when it resolves). -/
def c1ResultData : Option JSValue :=
  match c1Run.result with
  | .ok (some r) => some r.data
  | _ => none

/-- Claim C1 counterexample: the resolved `data` is not the object
`{ok:true}` — the merged config never carries `responseType`, so the
constructor's JSON-parsing response interceptor does not fire and the raw
body string comes back. -/
theorem c1_post_data_not_parsed :
    c1ResultData ≠ some (JSValue.vObj [("ok", JSValue.vBool true)]) := by
  intro h
  have h2 : some (JSValue.vStr "\x7b\"ok\":true\x7d") =
      some (JSValue.vObj [("ok", JSValue.vBool true)]) := h
  injection h2 with h3
  injection h3

/-- Claim C1 (amended): the `post("/r", {name:"a"})` call against the C1
client opens the transport with `POST http://h/r`, sends
`Content-Type: application/json` and the body `{"name":"a"}`, and on a
status-200 completion with body text `{"ok":true}` resolves to a response
whose `data` is that raw body string (not the parsed object, since the
merged config leaves `responseType` unset). -/
theorem c1_post_end_to_end :
    c1Run.trace = [XhrCall.openConn "POST" "http://h/r",
      XhrCall.setRequestHeader "Accept" "application/json",
      XhrCall.setRequestHeader "Content-Type" "application/json",
      XhrCall.send (some (.vStr "\x7b\"name\":\"a\"\x7d"))]
  ∧ c1ResultData = some (JSValue.vStr "\x7b\"ok\":true\x7d")
  ∧ (match c1Run.result with | .ok (some r) => some r.status | _ => none) = some 200 :=
  ⟨rfl, rfl, rfl⟩

/-- A response interceptor that bumps a counter outcome: used to separate
the two `afterRequest` folds. -/
def incPair : HandlerPair String Nat :=
  { fulfilled := fun v => .ok (v + 1), rejected := fun _ => .ok 0 }

/-- A two-slot chain whose second slot is tombstoned. -/
def c3Chain : List (Option (HandlerPair String Nat)) := [some incPair, none]

/-- Claim C3 counterexample: on a chain `[stage, tombstone]` the
`src/src/client.ts` fold keeps the stage's result while the duplicated
draft's fold resets to the original promise when it skips the tombstone, so
the two folds disagree. -/
theorem c3_folds_disagree :
    applyHandlers c3Chain (.ok 0) ≠ afterRequestDup c3Chain (.ok 0) := by
  intro h
  have h2 : (Except.ok 1 : Except String Nat) = Except.ok 0 := h
  injection h2 with h3
  exact absurd h3 (by decide)

/-- Helper for C3: on a chain with no tombstones, the duplicated fold's
captured original promise is never consulted, so any fold that differs only
on tombstoned slots computes `applyHandlers`. -/
theorem dupFold_eq_of_no_tombstone {E α : Type} (promise : Except E α)
    (hs : List (Option (HandlerPair E α))) (h : ∀ x ∈ hs, x.isSome = true) :
    ∀ acc, hs.foldl (fun request hh =>
      match hh with
      | none => promise
      | some handler => promiseThen request handler) acc = applyHandlers hs acc := by
  induction hs with
  | nil => intro acc; rfl
  | cons x rest ih =>
    intro acc
    match x with
    | none => exact absurd (h none (List.mem_cons_self _ _)) (by simp)
    | some hp =>
      have hrest : ∀ x ∈ rest, x.isSome = true := fun y hy => h y (List.mem_cons_of_mem _ hy)
      simpa [applyHandlers] using ih hrest (promiseThen acc hp)

/-- Claim C3 (amended): the two `afterRequest` folds agree on every chain
that contains no tombstoned slot and every initial outcome; they can differ
once a tombstoned slot follows a live one, because the duplicated draft
resumes from the original promise instead of the accumulated value. -/
theorem afterRequest_dup_agrees (E α : Type) (hs : List (Option (HandlerPair E α)))
    (p : Except E α) (h : ∀ x ∈ hs, x.isSome = true) :
    applyHandlers hs p = afterRequestDup hs p :=
  (dupFold_eq_of_no_tombstone p hs h p).symm

/-- Witness for the amended C3 theorem at a concrete one-stage chain. -/
theorem afterRequest_dup_agrees_witness :
    applyHandlers [some incPair] (.ok 0) = afterRequestDup [some incPair] (.ok 0) :=
  afterRequest_dup_agrees String Nat [some incPair] (.ok 0)
    (by intro x hx; rw [List.mem_singleton] at hx; subst hx; rfl)

/-- The C4 query parameters `{a: [1,2], b: null, c: "x"}`. -/
def c4Params : List (String × JSValue) :=
  [("a", .vArr [.vNum "1", .vNum "2"]), ("b", .vNull), ("c", .vStr "x")]

/-- Claim C4 counterexample: `buildURL` does not produce the
percent-encoded bracket form — `encode` restores `[` and `]` after
`encodeURIComponent`. -/
theorem c4_buildURL_not_percent_form :
    buildURL "/x" (some c4Params) ≠ "/x?a%5B%5D=1&a%5B%5D=2&c=x" := by decide

/-- Claim C4 (amended): with the brackets restored by `encode`, the call
yields `/x?a[]=1&a[]=2&c=x` — key order preserved, the `null`-valued key
dropped, array values fanned out under a `[]`-suffixed key, and `?` chosen
because the url has no query string yet. -/
theorem c4_buildURL_eval : buildURL "/x" (some c4Params) = "/x?a[]=1&a[]=2&c=x" := rfl

/-- The C9 payload. -/
def c9Payload : List (String × JSValue) := [("k", .vStr "v")]

/-- Claim C9: each verb shortcut builds exactly one request config; the
params-carrying shortcuts put the payload in `params` (body `none`), the
body-carrying ones put it in `data` (params `none`), and the method opened
on the transport is the shortcut's verb upper-cased — except `options`,
which the source wires to `HEAD`. -/
theorem c9_verb_shortcut_methods :
    openMethod (clientGet "/u" (some c9Payload) none).method = "GET"
  ∧ (clientGet "/u" (some c9Payload) none).params = some c9Payload
  ∧ (clientGet "/u" (some c9Payload) none).data = none
  ∧ openMethod (clientDelete "/u" (some c9Payload) none).method = "DELETE"
  ∧ openMethod (clientHead "/u" (some c9Payload) none).method = "HEAD"
  ∧ openMethod (clientPost "/u" (some (.vObj c9Payload)) none).method = "POST"
  ∧ (clientPost "/u" (some (.vObj c9Payload)) none).data = some (.vObj c9Payload)
  ∧ (clientPost "/u" (some (.vObj c9Payload)) none).params = none
  ∧ openMethod (clientPut "/u" (some (.vObj c9Payload)) none).method = "PUT"
  ∧ openMethod (clientPatch "/u" (some (.vObj c9Payload)) none).method = "PATCH"
  ∧ openMethod (clientOptions "/u" (some c9Payload) none).method = "HEAD" :=
  ⟨rfl, rfl, rfl, rfl, rfl, rfl, rfl, rfl, rfl, rfl, rfl⟩

/-- Claim C2 (amended): after registering three stages and ejecting the
middle handle, the slot list keeps its length and live slots at their
original indices with the ejected slot tombstoned to `null`, and a chain
application started after the eject invokes exactly slots 0 and 2, in that
order. -/
theorem c2_eject_skips_slot (α : Type) (A B C : HandlerPair String α)
    (init : Except String α) :
    (interceptorUse ([] : List (Option (HandlerPair String α))) A).2 = 0
  ∧ (interceptorUse (interceptorUse ([] : List (Option (HandlerPair String α))) A).1 B).2 = 1
  ∧ (interceptorUse (interceptorUse (interceptorUse ([] : List (Option (HandlerPair String α))) A).1 B).1 C).2 = 2
  ∧ (eject (interceptorUse (interceptorUse (interceptorUse ([] : List (Option (HandlerPair String α))) A).1 B).1 C).1 1) =
      [some A, none, some C]
  ∧ (applyHandlersTrace 0
      (eject (interceptorUse (interceptorUse (interceptorUse ([] : List (Option (HandlerPair String α))) A).1 B).1 C).1 1)
      init).2 = [0, 2]
  ∧ (1 : Nat) ∉ (applyHandlersTrace 0
      (eject (interceptorUse (interceptorUse (interceptorUse ([] : List (Option (HandlerPair String α))) A).1 B).1 C).1 1)
      init).2 := by
  refine ⟨rfl, rfl, rfl, rfl, rfl, ?_⟩
  intro hmem
  have h2 : (1 : Nat) ∈ ([0, 2] : List Nat) := hmem
  simp at h2

/-- Interceptor stage A for the C2 counterexample. -/
def cA : HandlerPair String Nat :=
  { fulfilled := fun v => .ok (v + 1), rejected := fun _ => .ok 0 }

/-- Interceptor stage B for the C2 counterexample: the stage that gets
ejected mid-flight. -/
def cB : HandlerPair String Nat :=
  { fulfilled := fun v => .ok (v * 10), rejected := fun _ => .ok 0 }

/-- Interceptor stage C for the C2 counterexample. -/
def cC : HandlerPair String Nat :=
  { fulfilled := fun v => .ok (v + 7), rejected := fun _ => .ok 0 }

/-- The C2 in-flight scenario: a fold over `[A, B, C]` captures the slots
(as the synchronous `reduce` does), runs only slot 0, then `eject` removes
B from the manager; the fold then finishes from its captured snapshot.
Returned: the slots the fold executed, and the manager's post-eject list. -/
def inFlightEjectScenario : List Nat × List (Option (HandlerPair String Nat)) :=
  let m3 := [some cA, some cB, some cC]
  let inFlight := foldStep (foldStart m3 (.ok 0))
  let managerAfterEject := eject m3 1
  ((foldSteps 2 inFlight).trace, managerAfterEject)

/-- Claim C2 counterexample: the in-flight fold had not yet reached slot 1
when slot 1 was ejected from the manager, yet it still executes slot 1
(trace `[0, 1, 2]`), because the fold runs from the slot contents captured
when it was built. -/
theorem c2_inflight_eject_still_runs_B :
    inFlightEjectScenario.1 = [0, 1, 2]
  ∧ (1 : Nat) ∈ inFlightEjectScenario.1
  ∧ inFlightEjectScenario.2 = [some cA, none, some cC] := by
  refine ⟨rfl, ?_, rfl⟩
  have h2 : (1 : Nat) ∈ ([0, 1, 2] : List Nat) := by simp
  exact h2

/-- Claim C5: for any trial parse, `stringifySafely` on a string that
parses returns the trimmed string unchanged (idempotent on serialized
JSON); on a `SyntaxError` it falls through to `JSON.stringify` of the
string; any other error from the trial parse is re-raised. -/
theorem c5_stringifySafely_spec (parse : String → Except JSErr JSValue) (s : String) :
    (∀ v, parse s = .ok v →
      stringifySafelyWith parse (.vStr s) = .ok (some (trim s)))
  ∧ (∀ e, parse s = .error e → e.name = "SyntaxError" →
      stringifySafelyWith parse (.vStr s) = .ok (some (jsonQuoteString s)))
  ∧ (∀ e, parse s = .error e → e.name ≠ "SyntaxError" →
      stringifySafelyWith parse (.vStr s) = .error e) := by
  refine ⟨fun v hv => ?_, fun e he hn => ?_, fun e he hn => ?_⟩
  · simp only [stringifySafelyWith]
    rw [hv]
  · simp only [stringifySafelyWith]
    rw [he]
    simp only [if_pos hn]
    rfl
  · simp only [stringifySafelyWith]
    rw [he]
    simp only [if_neg hn]

/-- A trial parse that raises a non-syntax error, for the re-raise case. -/
def typeErrParse : String → Except JSErr JSValue := fun _ => .error ⟨"TypeError", "boom"⟩

/-- Witness for C5: the three cases at concrete inputs, with the model's
`JSON.parse` for the first two. -/
theorem c5_stringifySafely_spec_witness :
    stringifySafelyWith jsonParse (.vStr " null ") = .ok (some (trim " null "))
  ∧ stringifySafelyWith jsonParse (.vStr "nope") = .ok (some (jsonQuoteString "nope"))
  ∧ stringifySafelyWith typeErrParse (.vStr "x") = .error ⟨"TypeError", "boom"⟩ :=
  ⟨(c5_stringifySafely_spec jsonParse " null ").1 .vNull rfl,
   (c5_stringifySafely_spec jsonParse "nope").2.1 jsonSyntaxErr rfl rfl,
   (c5_stringifySafely_spec typeErrParse "x").2.2 ⟨"TypeError", "boom"⟩ rfl (by decide)⟩

/-- The timeout trace fragment never contains an `open` call. -/
theorem openConn_not_mem_timeoutTrace (o : Option Nat) (m u : String) :
    XhrCall.openConn m u ∉ timeoutTrace o := by
  rcases o with _ | t
  · simp [timeoutTrace]
  · unfold timeoutTrace
    split <;> simp

/-- The timeout trace fragment never contains a `send` call. -/
theorem send_not_mem_timeoutTrace (o : Option Nat) (b : Option JSValue) :
    XhrCall.send b ∉ timeoutTrace o := by
  rcases o with _ | t
  · simp [timeoutTrace]
  · unfold timeoutTrace
    split <;> simp

/-- The response-type trace fragment never contains a `send` call. -/
theorem send_not_mem_respTypeTrace (rt : String) (b : Option JSValue) :
    XhrCall.send b ∉ respTypeTrace rt := by
  unfold respTypeTrace
  split <;> simp

/-- Claim C6: when the resolved full path carries a parsed scheme outside
`{http, https, file, blob}`, `_request` rejects with the protocol error and
never calls `open`; with a supported or absent scheme no such rejection
happens at this step. -/
theorem c6_protocol_guard (cfg : RequestConfig) :
    ((parseProtocol (buildFullPath (cfg.baseURL.getD "") cfg.url) ≠ "" ∧
      ¬ ((["http", "https", "file", "blob"] : List String).contains
          (parseProtocol (buildFullPath (cfg.baseURL.getD "") cfg.url))) →
      (requestSetup cfg).err = some "Unsupported protocol" ∧
      ∀ m u, XhrCall.openConn m u ∉ (requestSetup cfg).trace)
  ∧ (¬ (parseProtocol (buildFullPath (cfg.baseURL.getD "") cfg.url) ≠ "" ∧
      ¬ ((["http", "https", "file", "blob"] : List String).contains
          (parseProtocol (buildFullPath (cfg.baseURL.getD "") cfg.url)))) →
      (requestSetup cfg).err = none)) := by
  constructor
  · intro hbad
    unfold requestSetup
    rw [if_pos hbad]
    refine ⟨rfl, ?_⟩
    intro m u hmem
    exact openConn_not_mem_timeoutTrace cfg.timeout m u hmem
  · intro hgood
    unfold requestSetup
    rw [if_neg hgood]

/-- The C6 rejecting configuration: `url = "ftp://x/y"`. -/
def ftpCfg : RequestConfig := { url := "ftp://x/y" }

/-- A C6 accepted configuration. -/
def okCfg : RequestConfig := { url := "/r", baseURL := some "http://h" }

/-- Witness for C6 at `ftp://x/y` (rejected before `open`) and at an
`http` request (no protocol rejection). -/
theorem c6_protocol_guard_witness :
    ((requestSetup ftpCfg).err = some "Unsupported protocol" ∧
      ∀ m u, XhrCall.openConn m u ∉ (requestSetup ftpCfg).trace)
  ∧ (requestSetup okCfg).err = none :=
  ⟨(c6_protocol_guard ftpCfg).1 (by decide), (c6_protocol_guard okCfg).2 (by decide)⟩

/-- Claim C8 counterexample: the empty relative path is relative (it does
not match the absolute-URL pattern), yet `combineURLs` returns the base
unchanged, with no slash appended. -/
theorem c8_empty_path_no_slash :
    isAbsoluteURL "" = false ∧
    buildFullPath "http://h" "" ≠ "http://h" ++ "/" ++ stripLeadingSlashes "" := by
  constructor
  · rfl
  · decide

/-- Claim C8 (amended): for every non-empty relative path and non-empty
base without a trailing slash, the resolved path is the base, exactly one
slash, then the path with leading slashes stripped. -/
theorem c8_resolve_relative (b p : String) (hb : b ≠ "")
    (hslash : b.data.getLast? ≠ some '/') (habs : isAbsoluteURL p = false)
    (hp : p ≠ "") :
    buildFullPath b p = b ++ "/" ++ stripLeadingSlashes p := by
  unfold buildFullPath
  rw [if_pos ⟨hb, by simp [habs]⟩]
  unfold combineURLs
  rw [if_pos hp]
  have hstrip : stripTrailingSlashes b = b := by
    unfold stripTrailingSlashes
    have hd : b.data.reverse.dropWhile (fun c => c == '/') = b.data.reverse := by
      cases hrev : b.data.reverse with
      | nil => simp
      | cons c rest =>
        have hlast : b.data.getLast? = some c := by
          rw [← List.head?_reverse, hrev]
          rfl
        have hc : (c == '/') = false := by
          cases hcb : c == '/'
          · rfl
          · exact absurd (hlast.trans (by rw [beq_iff_eq.mp hcb])) hslash
        simp [List.dropWhile_cons, hc]
    rw [hd, List.reverse_reverse]
  rw [hstrip]

/-- Witness for the amended C8 theorem. -/
theorem c8_resolve_relative_witness :
    buildFullPath "http://h" "a/b" = "http://h" ++ "/" ++ stripLeadingSlashes "a/b" :=
  c8_resolve_relative "http://h" "a/b" (by decide) (by decide) (by decide) (by decide)

/-- The header object `beforeSendRquestInterceptor` hands to
`transformRequest`: the config's headers (or `{}`), with `Accept` and
`Content-Type` forced to `application/json` when the config asked for
`responseType: 'json'`. -/
def mergedHeadersPre (m : RequestConfig) : Headers :=
  let headers := m.headers.getD []
  if m.responseType = some "json" then
    objSet (objSet headers "Accept" "application/json") "Content-Type" "application/json"
  else headers

/-- The same headers after `transformRequest`'s two name normalizations. -/
def normalizedPre (m : RequestConfig) : Headers :=
  normalizeHeaderName (normalizeHeaderName (mergedHeadersPre m) "Accept") "Content-Type"

/-- With no payload, the implicit trailing request interceptor serializes
the empty object: `data` becomes the string `{}` and `Content-Type` is set
(if unset) on the normalized headers. -/
theorem beforeSend_no_data (m : RequestConfig) (hdata : m.data = none) :
    beforeSendFulfilled m = .ok { m with data := some (.vStr "\x7b\x7d"),
                                         headers := some (setContentTypeIfUnset (normalizedPre m) "application/json") } := by
  unfold beforeSendFulfilled
  rw [hdata]
  rfl

/-- The header loop forwards every header and deletes none when the body is
present. -/
theorem headerCalls_some (v : JSValue) (hs : Headers) :
    headerCalls (some v) hs =
      (hs.map (fun kv => XhrCall.setRequestHeader kv.1 kv.2), []) := by
  induction hs with
  | nil => rfl
  | cons kv rest ih =>
    have hcond : ¬ ((some v).isNone = true ∧ jsToLower kv.1 = "content-type") := by simp
    unfold headerCalls
    rw [if_neg hcond, ih]
    rfl

/-- With a truthy body in the config, `_request` deletes no header and every
`send` it performs carries exactly that body. -/
theorem requestSetup_truthy_data (cfg : RequestConfig) (v : JSValue)
    (hdata : cfg.data = some v) (hv : jsTruthy v = true) :
    (requestSetup cfg).deleted = [] ∧
    ∀ b, XhrCall.send b ∈ (requestSetup cfg).trace → b = some v := by
  unfold requestSetup
  by_cases hbad : (parseProtocol (buildFullPath (cfg.baseURL.getD "") cfg.url) ≠ "" ∧
      ¬ ((["http", "https", "file", "blob"] : List String).contains
          (parseProtocol (buildFullPath (cfg.baseURL.getD "") cfg.url))))
  · rw [if_pos hbad]
    exact ⟨rfl, fun b hb => absurd hb (send_not_mem_timeoutTrace _ _)⟩
  · rw [if_neg hbad, hdata, headerCalls_some]
    refine ⟨rfl, ?_⟩
    intro b hb
    rcases List.mem_append.mp hb with hb4 | hb5
    · rcases List.mem_append.mp hb4 with hb3 | hbr
      · rcases List.mem_append.mp hb3 with hb2 | hbm
        · rcases List.mem_append.mp hb2 with hbt | hbo
          · exact absurd hbt (send_not_mem_timeoutTrace _ _)
          · rw [List.mem_singleton] at hbo
            exact XhrCall.noConfusion hbo
        · rcases List.mem_map.mp hbm with ⟨kv, _, heq⟩
          exact XhrCall.noConfusion heq
      · exact absurd hbr (send_not_mem_respTypeTrace _ _)
    · rw [List.mem_singleton] at hb5
      injection hb5 with hbody
      rw [hbody]
      simp [sendBody, hv]

/-- Claim C10: on the `Client.request` path with no caller-registered
request interceptors and no `data` in the call's config, the implicit
trailing interceptor turns the payload into the string `{}` (setting
`Content-Type: application/json` when the normalized headers lack it), so
the transport body is that defined string and the header-deleting branch of
`_request` never runs. -/
theorem c10_no_data_body_defined (options : RequetConstructor) (cfg : RequestConfig)
    (hdata : cfg.data = none) (cfg' : RequestConfig)
    (hrun : berforeRequest [] (mergeRequestConfig (ctorDefaults options) cfg) =
      .ok (some cfg')) :
    cfg'.data = some (.vStr "\x7b\x7d")
  ∧ (objGet (normalizedPre (mergeRequestConfig (ctorDefaults options) cfg))
        "Content-Type" = none →
      objGet (cfg'.headers.getD []) "Content-Type" = some "application/json")
  ∧ (requestSetup cfg').deleted = []
  ∧ ∀ b, XhrCall.send b ∈ (requestSetup cfg').trace → b = some (.vStr "\x7b\x7d") := by
  have hm : (mergeRequestConfig (ctorDefaults options) cfg).data = none := hdata
  have hbs := beforeSend_no_data _ hm
  have hrun2 : (beforeSendFulfilled (mergeRequestConfig (ctorDefaults options) cfg)).map
      some = .ok (some cfg') := hrun
  rw [hbs] at hrun2
  simp only [Except.map] at hrun2
  injection hrun2 with h1
  injection h1 with h2
  subst h2
  refine ⟨rfl, ?_, ?_, ?_⟩
  · intro hct
    show objGet (setContentTypeIfUnset
      (normalizedPre (mergeRequestConfig (ctorDefaults options) cfg)) "application/json")
      "Content-Type" = some "application/json"
    unfold setContentTypeIfUnset
    rw [if_pos hct]
    exact objGet_objSet_self _ _ _
  · exact (requestSetup_truthy_data _ (.vStr "\x7b\x7d") rfl rfl).1
  · exact (requestSetup_truthy_data _ (.vStr "\x7b\x7d") rfl rfl).2

/-- The config the C10 witness run produces. -/
def c10Result : RequestConfig :=
  { url := "/w",
    headers := some [("Accept", "application/json, text/plain, */*"),
                     ("Content-Type", "application/json")],
    data := some (.vStr "\x7b\x7d") }

/-- Witness for C10 at a bare `{ url := "/w" }` request against a default
client. -/
theorem c10_no_data_body_defined_witness :
    ({ url := "/w" } : RequestConfig).data = none
  ∧ berforeRequest [] (mergeRequestConfig (ctorDefaults {}) { url := "/w" }) =
      .ok (some c10Result)
  ∧ c10Result.data = some (.vStr "\x7b\x7d")
  ∧ (requestSetup c10Result).deleted = [] :=
  ⟨rfl, rfl,
   (c10_no_data_body_defined {} { url := "/w" } rfl c10Result rfl).1,
   (c10_no_data_body_defined {} { url := "/w" } rfl c10Result rfl).2.2.1⟩

/-- The values, in encounter order, carried by the lines whose computed key
is `k`. -/
def valsFor (k : String) (ls : List String) : List String :=
  (ls.filter (fun l => lineKey l == k)).map lineVal

/-- The comma-space join `parseHeaders` accumulates for duplicate keys,
starting from the first value. -/
def accJoin (acc : String) (vs : List String) : String :=
  vs.foldl (fun a v => a ++ ", " ++ v) acc

/-- A comma-space joined header value is never empty. -/
theorem commaJoin_ne_empty (a v : String) : a ++ ", " ++ v ≠ "" := by
  intro h
  have h2 := congrArg String.length h
  rw [String.length_append, String.length_append] at h2
  have h3 : (", " : String).length = 2 := rfl
  have h4 : ("" : String).length = 0 := rfl
  rw [h3, h4] at h2
  omega

/-- A `parseHeaders` iteration leaves every other key's entry unchanged. -/
theorem parseHeadersStep_preserve (m : List (String × HeaderVal)) (line k : String)
    (hne : lineKey line ≠ k) :
    objGet (parseHeadersStep m line) k = objGet m k := by
  simp only [parseHeadersStep]
  by_cases h0 : lineKey line = ""
  · rw [if_pos h0]
  · rw [if_neg h0]
    by_cases h1 : (((objGet m (lineKey line)).elim false fun hv => hvTruthy hv) &&
        ignoreDuplicateOf.contains (lineKey line)) = true
    · rw [if_pos h1]
    · rw [if_neg h1]
      by_cases h2 : lineKey line = "set-cookie"
      · rw [if_pos h2]
        cases hg : objGet m (lineKey line) with
        | none => exact objGet_objSet_ne m _ k _ (fun he => hne he.symm)
        | some hv =>
          dsimp only
          by_cases ht : hvTruthy hv = true
          · rw [if_pos ht]
            exact objGet_objSet_ne m _ k _ (fun he => hne he.symm)
          · rw [if_neg ht]
            exact objGet_objSet_ne m _ k _ (fun he => hne he.symm)
      · rw [if_neg h2]
        cases hg : objGet m (lineKey line) with
        | none => exact objGet_objSet_ne m _ k _ (fun he => hne he.symm)
        | some hv =>
          dsimp only
          by_cases ht : hvTruthy hv = true
          · rw [if_pos ht]
            exact objGet_objSet_ne m _ k _ (fun he => hne he.symm)
          · rw [if_neg ht]
            exact objGet_objSet_ne m _ k _ (fun he => hne he.symm)

/-- A duplicate of a truthy ignore-set entry is dropped. -/
theorem parseHeadersStep_ignore (m : List (String × HeaderVal)) (line k : String)
    (hl : lineKey line = k) (hk : k ≠ "") (hv : HeaderVal)
    (hget : objGet m k = some hv) (ht : hvTruthy hv = true)
    (hmem : ignoreDuplicateOf.contains k = true) :
    parseHeadersStep m line = m := by
  simp only [parseHeadersStep, hl]
  rw [if_neg hk, if_pos (by rw [hget]; simp only [Option.elim]; rw [ht, hmem]; rfl)]

/-- A `set-cookie` line appends to an existing cookie list. -/
theorem parseHeadersStep_sc_append (m : List (String × HeaderVal)) (line : String)
    (hl : lineKey line = "set-cookie") (vs : List String)
    (hget : objGet m "set-cookie" = some (.list vs)) :
    parseHeadersStep m line = objSet m "set-cookie" (.list (vs ++ [lineVal line])) := by
  have hig : ignoreDuplicateOf.contains "set-cookie" = false := by decide
  simp only [parseHeadersStep, hl]
  rw [if_neg (by decide : ¬ ("set-cookie" : String) = "")]
  rw [if_neg (by rw [hget]; simp only [Option.elim, hig, Bool.and_false]; simp)]
  rw [if_pos trivial, hget]
  dsimp only
  rw [if_pos (show hvTruthy (.list vs) = true from rfl)]
  rfl

/-- The first `set-cookie` line creates the singleton cookie list. -/
theorem parseHeadersStep_sc_new (m : List (String × HeaderVal)) (line : String)
    (hl : lineKey line = "set-cookie")
    (hget : objGet m "set-cookie" = none) :
    parseHeadersStep m line = objSet m "set-cookie" (.list [lineVal line]) := by
  simp only [parseHeadersStep, hl]
  rw [if_neg (by decide : ¬ ("set-cookie" : String) = "")]
  rw [if_neg (by rw [hget]; simp only [Option.elim]; simp)]
  rw [if_pos trivial, hget]

/-- The first line of an ordinary key stores its value as a string. -/
theorem parseHeadersStep_new (m : List (String × HeaderVal)) (line k : String)
    (hl : lineKey line = k) (hk : k ≠ "") (hsc : k ≠ "set-cookie")
    (hget : objGet m k = none) :
    parseHeadersStep m line = objSet m k (.sv (lineVal line)) := by
  simp only [parseHeadersStep, hl]
  rw [if_neg hk, if_neg (by rw [hget]; simp only [Option.elim]; simp),
      if_neg hsc, hget]

/-- A duplicate of a truthy key outside the ignore set comma-space-joins. -/
theorem parseHeadersStep_join (m : List (String × HeaderVal)) (line k : String)
    (hl : lineKey line = k) (hk : k ≠ "") (hsc : k ≠ "set-cookie")
    (hmem : ignoreDuplicateOf.contains k = false) (acc : String)
    (hget : objGet m k = some (.sv acc)) (hacc : acc ≠ "") :
    parseHeadersStep m line = objSet m k (.sv (acc ++ ", " ++ lineVal line)) := by
  simp only [parseHeadersStep, hl]
  rw [if_neg hk, if_neg (by rw [hget]; simp only [Option.elim, hmem, Bool.and_false]; simp),
      if_neg hsc, hget]
  dsimp only
  rw [if_pos (by simp [hvTruthy, hacc])]
  rfl

/-- `valsFor` over a line whose key matches. -/
theorem valsFor_cons_eq (k : String) (l : String) (ls : List String)
    (hl : lineKey l = k) : valsFor k (l :: ls) = lineVal l :: valsFor k ls := by
  simp [valsFor, List.filter_cons, hl]

/-- `valsFor` over a line whose key differs. -/
theorem valsFor_cons_ne (k : String) (l : String) (ls : List String)
    (hl : lineKey l ≠ k) : valsFor k (l :: ls) = valsFor k ls := by
  simp [valsFor, List.filter_cons, hl]

/-- Once `set-cookie` holds a list, the rest of the fold appends every
further `set-cookie` value in order. -/
theorem parseHeaders_sc_accum : ∀ (ls : List String) (m : List (String × HeaderVal))
    (vs : List String), objGet m "set-cookie" = some (.list vs) →
    objGet (ls.foldl parseHeadersStep m) "set-cookie" =
      some (.list (vs ++ valsFor "set-cookie" ls)) := by
  intro ls
  induction ls with
  | nil => intro m vs h; simpa [valsFor] using h
  | cons l rest ih =>
    intro m vs h
    rw [List.foldl_cons]
    by_cases hl : lineKey l = "set-cookie"
    · have hstep := parseHeadersStep_sc_append m l hl vs h
      have hget' : objGet (parseHeadersStep m l) "set-cookie" =
          some (.list (vs ++ [lineVal l])) := by
        rw [hstep]; exact objGet_objSet_self _ _ _
      rw [ih (parseHeadersStep m l) (vs ++ [lineVal l]) hget',
          valsFor_cons_eq _ _ _ hl, List.append_assoc]
      rfl
    · have hget' : objGet (parseHeadersStep m l) "set-cookie" = some (.list vs) := by
        rw [parseHeadersStep_preserve m l _ hl, h]
      rw [ih (parseHeadersStep m l) vs hget', valsFor_cons_ne _ _ _ hl]

/-- Folding from a map without a `set-cookie` entry yields the ordered list
of all `set-cookie` values. -/
theorem parseHeaders_sc_start : ∀ (ls : List String) (m : List (String × HeaderVal)),
    objGet m "set-cookie" = none → valsFor "set-cookie" ls ≠ [] →
    objGet (ls.foldl parseHeadersStep m) "set-cookie" =
      some (.list (valsFor "set-cookie" ls)) := by
  intro ls
  induction ls with
  | nil => intro m h hne; exact absurd rfl hne
  | cons l rest ih =>
    intro m h hne
    rw [List.foldl_cons]
    by_cases hl : lineKey l = "set-cookie"
    · have hstep := parseHeadersStep_sc_new m l hl h
      have hget' : objGet (parseHeadersStep m l) "set-cookie" =
          some (.list [lineVal l]) := by
        rw [hstep]; exact objGet_objSet_self _ _ _
      rw [parseHeaders_sc_accum rest (parseHeadersStep m l) [lineVal l] hget',
          valsFor_cons_eq _ _ _ hl]
      rfl
    · have hget' : objGet (parseHeadersStep m l) "set-cookie" = none := by
        rw [parseHeadersStep_preserve m l _ hl, h]
      rw [valsFor_cons_ne _ _ _ hl] at hne ⊢
      exact ih (parseHeadersStep m l) hget' hne

/-- A truthy entry of an ignore-set key survives the rest of the fold
unchanged. -/
theorem parseHeaders_ignore_stable (k : String)
    (hmem : ignoreDuplicateOf.contains k = true) (hk : k ≠ "") :
    ∀ (ls : List String) (m : List (String × HeaderVal)) (c : String),
    objGet m k = some (.sv c) → c ≠ "" →
    objGet (ls.foldl parseHeadersStep m) k = some (.sv c) := by
  intro ls
  induction ls with
  | nil => intro m c h _; exact h
  | cons l rest ih =>
    intro m c h hc
    rw [List.foldl_cons]
    by_cases hl : lineKey l = k
    · have hstep := parseHeadersStep_ignore m l k hl hk (.sv c) h
        (by simp [hvTruthy, hc]) hmem
      rw [hstep]
      exact ih m c h hc
    · have hget' : objGet (parseHeadersStep m l) k = some (.sv c) := by
        rw [parseHeadersStep_preserve m l _ hl, h]
      exact ih (parseHeadersStep m l) c hget' hc

/-- For an ignore-set key, the fold keeps exactly the first value when that
value is non-empty. -/
theorem parseHeaders_ignore_first (k : String)
    (hmem : ignoreDuplicateOf.contains k = true) (hk : k ≠ "")
    (hsc : k ≠ "set-cookie") :
    ∀ (ls : List String) (m : List (String × HeaderVal)) (c : String)
      (restV : List String),
    objGet m k = none → valsFor k ls = c :: restV → c ≠ "" →
    objGet (ls.foldl parseHeadersStep m) k = some (.sv c) := by
  intro ls
  induction ls with
  | nil =>
    intro m c restV _ hvals _
    rw [show valsFor k [] = [] from rfl] at hvals
    exact List.noConfusion hvals
  | cons l rest ih =>
    intro m c restV h hvals hc
    rw [List.foldl_cons]
    by_cases hl : lineKey l = k
    · rw [valsFor_cons_eq _ _ _ hl] at hvals
      have hcv : lineVal l = c := (List.cons.injEq _ _ _ _).mp hvals |>.1
      have hstep := parseHeadersStep_new m l k hl hk hsc h
      have hget' : objGet (parseHeadersStep m l) k = some (.sv c) := by
        rw [hstep, hcv]; exact objGet_objSet_self _ _ _
      exact parseHeaders_ignore_stable k hmem hk rest (parseHeadersStep m l) c hget' hc
    · rw [valsFor_cons_ne _ _ _ hl] at hvals
      have hget' : objGet (parseHeadersStep m l) k = none := by
        rw [parseHeadersStep_preserve m l _ hl, h]
      exact ih (parseHeadersStep m l) c restV hget' hvals hc

/-- Once a non-ignored ordinary key holds a non-empty string, the rest of
the fold comma-space-joins every further value for it in order. -/
theorem parseHeaders_join_accum (k : String)
    (hmem : ignoreDuplicateOf.contains k = false) (hk : k ≠ "")
    (hsc : k ≠ "set-cookie") :
    ∀ (ls : List String) (m : List (String × HeaderVal)) (acc : String),
    objGet m k = some (.sv acc) → acc ≠ "" →
    objGet (ls.foldl parseHeadersStep m) k = some (.sv (accJoin acc (valsFor k ls))) := by
  intro ls
  induction ls with
  | nil => intro m acc h _; simpa [valsFor, accJoin] using h
  | cons l rest ih =>
    intro m acc h hacc
    rw [List.foldl_cons]
    by_cases hl : lineKey l = k
    · have hstep := parseHeadersStep_join m l k hl hk hsc hmem acc h hacc
      have hget' : objGet (parseHeadersStep m l) k =
          some (.sv (acc ++ ", " ++ lineVal l)) := by
        rw [hstep]; exact objGet_objSet_self _ _ _
      rw [ih (parseHeadersStep m l) (acc ++ ", " ++ lineVal l) hget'
            (commaJoin_ne_empty acc (lineVal l)),
          valsFor_cons_eq _ _ _ hl]
      rfl
    · have hget' : objGet (parseHeadersStep m l) k = some (.sv acc) := by
        rw [parseHeadersStep_preserve m l _ hl, h]
      rw [ih (parseHeadersStep m l) acc hget' hacc, valsFor_cons_ne _ _ _ hl]

/-- For a non-ignored ordinary key with a non-empty first value, the fold
produces the comma-space join of all its values in encounter order. -/
theorem parseHeaders_join_first (k : String)
    (hmem : ignoreDuplicateOf.contains k = false) (hk : k ≠ "")
    (hsc : k ≠ "set-cookie") :
    ∀ (ls : List String) (m : List (String × HeaderVal)) (v0 : String)
      (vs0 : List String),
    objGet m k = none → valsFor k ls = v0 :: vs0 → v0 ≠ "" →
    objGet (ls.foldl parseHeadersStep m) k = some (.sv (accJoin v0 vs0)) := by
  intro ls
  induction ls with
  | nil =>
    intro m v0 vs0 _ hvals _
    rw [show valsFor k [] = [] from rfl] at hvals
    exact List.noConfusion hvals
  | cons l rest ih =>
    intro m v0 vs0 h hvals hv0
    rw [List.foldl_cons]
    by_cases hl : lineKey l = k
    · rw [valsFor_cons_eq _ _ _ hl] at hvals
      have hcv : lineVal l = v0 := (List.cons.injEq _ _ _ _).mp hvals |>.1
      have hvs : valsFor k rest = vs0 := (List.cons.injEq _ _ _ _).mp hvals |>.2
      have hstep := parseHeadersStep_new m l k hl hk hsc h
      have hget' : objGet (parseHeadersStep m l) k = some (.sv v0) := by
        rw [hstep, hcv]; exact objGet_objSet_self _ _ _
      rw [parseHeaders_join_accum k hmem hk hsc rest (parseHeadersStep m l) v0 hget' hv0,
          hvs]
    · rw [valsFor_cons_ne _ _ _ hl] at hvals
      have hget' : objGet (parseHeadersStep m l) k = none := by
        rw [parseHeadersStep_preserve m l _ hl, h]
      exact ih (parseHeadersStep m l) v0 vs0 hget' hvals hv0

/-- Claim C7 (amended): for a header blob whose computed line keys carry
exactly two `set-cookie` values and whose first `content-length` value is
non-empty, `parseHeaders` stores `set-cookie` as the ordered two-element
list and `content-length` as only that first value; every key outside the
ignore set (other than `set-cookie`) with a non-empty first value gets its
values comma-space-joined in encounter order.  The non-emptiness caveats
are forced by JavaScript truthiness: an empty stored value is falsy and is
overwritten rather than kept or joined. -/
theorem c7_parseHeaders_duplicates (blob : String) (v1 v2 c : String)
    (restCl : List String)
    (hsc : valsFor "set-cookie" (jsSplitNl blob) = [v1, v2])
    (hcl : valsFor "content-length" (jsSplitNl blob) = c :: restCl)
    (hc : c ≠ "") :
    objGet (parseHeaders blob) "set-cookie" = some (.list [v1, v2])
  ∧ objGet (parseHeaders blob) "content-length" = some (.sv c)
  ∧ ∀ k v0 vs0, ignoreDuplicateOf.contains k = false → k ≠ "set-cookie" →
      k ≠ "" → valsFor k (jsSplitNl blob) = v0 :: vs0 → v0 ≠ "" →
      objGet (parseHeaders blob) k = some (.sv (accJoin v0 vs0)) := by
  have hblob : blob ≠ "" := by
    intro h
    subst h
    rw [show valsFor "set-cookie" (jsSplitNl "") = [] from rfl] at hsc
    exact List.noConfusion hsc
  unfold parseHeaders
  rw [if_neg hblob]
  refine ⟨?_, ?_, ?_⟩
  · have := parseHeaders_sc_start (jsSplitNl blob) [] rfl (by rw [hsc]; simp)
    rw [hsc] at this
    exact this
  · exact parseHeaders_ignore_first "content-length" (by decide) (by decide)
      (by decide) (jsSplitNl blob) [] c restCl rfl hcl hc
  · intro k v0 vs0 hn hks hke hv hv0
    exact parseHeaders_join_first k hn hke hks (jsSplitNl blob) [] v0 vs0 rfl hv hv0

/-- The C7 counterexample blob: two `Set-Cookie` lines plus a
`Content-Length` duplicate whose first occurrence carries the empty value. -/
def c7Blob : String := "Set-Cookie: a\nSet-Cookie: b\nContent-Length:\nContent-Length: 5"

/-- Claim C7 counterexample: in `c7Blob` the first `Content-Length` value is
the empty string, yet `parseHeaders` reports `"5"` — the falsy first value
is overwritten by the duplicate, so the entry does not always equal the
first occurrence's value. -/
theorem c7_first_value_overwritten :
    lineVal "Content-Length:" = ""
  ∧ objGet (parseHeaders c7Blob) "content-length" = some (.sv "5")
  ∧ objGet (parseHeaders c7Blob) "content-length" ≠ some (.sv "") :=
  ⟨rfl, rfl, by decide⟩

/-- The C7 witness blob. -/
def c7WBlob : String := "Set-Cookie: a\nSet-Cookie: b\nContent-Length: 3\nX-Dup: p\nX-Dup: q"

/-- Witness for the amended C7 theorem on `c7WBlob`. -/
theorem c7_parseHeaders_duplicates_witness :
    objGet (parseHeaders c7WBlob) "set-cookie" = some (.list ["a", "b"])
  ∧ objGet (parseHeaders c7WBlob) "content-length" = some (.sv "3")
  ∧ objGet (parseHeaders c7WBlob) "x-dup" = some (.sv (accJoin "p" ["q"])) := by
  have h := c7_parseHeaders_duplicates c7WBlob "a" "b" "3" [] rfl rfl (by decide)
  exact ⟨h.1, h.2.1, h.2.2 "x-dup" "p" ["q"] (by decide) (by decide) (by decide)
    rfl (by decide)⟩
